import Mathlib

/-!
Verification development for the `tanstack-mock-server-fn` repository.

The repository has two registry variants and two plugin variants:
  * `src/unnamed/part_000` — a `Map<string, Function>` registry with an
    empty-name check in `mockServerFn`, plus `createMockWrapper`;
  * `src/src/mock.ts` — a plain-object registry on
    `globalThis.__SERVER_FN_MOCKS__` whose `mockServerFn` takes an optional
    injected `_fnName` and performs no validation;
  * `src/unnamed/part_001` — the Vite plugin with the scan pass
    (`mockServerFn` call detection and literal-name injection), the
    call-chain classifier and the declaration rewriter;
  * `src/src/vite.ts` — an older plugin draft (body-swap style).

Registry entries embed to an association list keyed by strings with the
newest entry first; `Map.set` / property-assignment overwrite is realised by
shadowing.  The `Map` operations of `part_000` read exactly this list.  The
plain object backing `mock.ts` additionally inherits `Object.prototype`, so
its property reads and its `in` tests fall back to the prototype's property
keys when no own entry is present; the `GlobalRegistry` operations model
that chain explicitly via `objectProtoKeys`.
The Babel AST fragment that the plugin constructs and inspects is embedded as
a family of mutual inductive types mirroring the `@babel/types` constructors
used in `src/unnamed/part_001`; object-literal properties are represented by
their value expressions (keys are never inspected by the plugin) and
arrow-function parameter lists by plain names (the plugin never builds or
reads parameter defaults).
-/

/-! ## Mock registry (`src/src/mock.ts` and `src/unnamed/part_000`) -/

abbrev Registry (α : Type) : Type := List (String × α)

/-- `mockRegistry.set(key, mockImpl)` / `globalThis.__SERVER_FN_MOCKS__[name] = mockImpl`. -/
def Registry.set {α : Type} (r : Registry α) (n : String) (impl : α) : Registry α :=
  (n, impl) :: r

/-- `getMockImplementation(fnName)` in `src/unnamed/part_000`:
`mockRegistry.get(fnName)` — a true `Map` read, own entries only; returns the
entry or the absent marker.  The plain-object read of `src/src/mock.ts` is
modelled separately as `GlobalRegistry.getMockImplementation`, because that
read also consults `Object.prototype`. -/
def getMockImplementation {α : Type} (r : Registry α) (n : String) : Option α :=
  List.lookup n r

/-- `hasMock(fnName)` in `src/unnamed/part_000`: `mockRegistry.has(fnName)` —
`Map` key presence, which coincides with `mockRegistry.get` being present.
The `fnName in …` test of `src/src/mock.ts` is modelled separately as
`GlobalRegistry.hasMock`, because `in` walks the prototype chain. -/
def hasMock {α : Type} (r : Registry α) (n : String) : Bool :=
  (getMockImplementation r n).isSome

/-- `clearMocks()` in `src/unnamed/part_000`: `mockRegistry.clear()` — the
`Map` becomes empty and `Map` reads never consult a prototype. -/
def clearMocks {α : Type} (_r : Registry α) : Registry α := []

/-- JS `a || b` on strings, with `a` optional: the empty string and a missing
value are falsy. Used by `src/src/mock.ts` for `_fnName || serverFn.name`. -/
def jsStringOr (a : Option String) (b : String) : String :=
  match a with
  | Option.some s => if s = "" then b else s
  | Option.none => b

namespace MapRegistry

/-- `mockServerFn(serverFn, mockImpl)` from `src/unnamed/part_000`:
`key = serverFn.name`; an empty key throws, otherwise the entry is stored.
`ownName` stands for `serverFn.name`. -/
def mockServerFn {α : Type} (r : Registry α) (ownName : String) (mockImpl : α) :
    Except String (Registry α) :=
  if ownName = "" then Except.error "Server function must have a name to be mocked"
  else Except.ok (Registry.set r ownName mockImpl)

/-- `createMockWrapper(originalFn)` from `src/unnamed/part_000`: the returned
closure consults the registry at call time under `originalFn.name`
(`origName` here), calling the mock when present and `originalFn` otherwise.
The JS rest-argument tuple is the single value of type `α`. -/
def createMockWrapper {α β : Type} (origName : String) (originalFn : α → β)
    (r : Registry (α → β)) (args : α) : β :=
  match getMockImplementation r origName with
  | Option.some mockImpl => mockImpl args
  | Option.none => originalFn args

end MapRegistry

/-- The property keys of `Object.prototype` inherited by the object literal
`{}` backing `globalThis.__SERVER_FN_MOCKS__` in `src/src/mock.ts`: the
ECMA-262 methods plus the Annex B accessors implemented by Node and the
browsers.  A property read or an `in` test on the registry object falls back
to these keys when no own entry is present. -/
def objectProtoKeys : List String :=
  ["constructor", "hasOwnProperty", "isPrototypeOf", "propertyIsEnumerable",
   "toLocaleString", "toString", "valueOf", "__proto__", "__defineGetter__",
   "__defineSetter__", "__lookupGetter__", "__lookupSetter__"]

namespace GlobalRegistry

/-- Result of the plain-object property read
`globalThis.__SERVER_FN_MOCKS__[fnName]` in `src/src/mock.ts`: an own entry
(a registered mock), a value inherited from `Object.prototype` (a built-in
function or object, truthy but never a registered mock), or `undefined`. -/
inductive Slot (α : Type) : Type where
  | own (impl : α)
  | inherited
  | absent

/-- `getMockImplementation(fnName)` as `src/src/mock.ts` realises it:
`globalThis.__SERVER_FN_MOCKS__[fnName]` returns the own entry when one is
stored, otherwise the inherited `Object.prototype` value when `fnName` is a
prototype key, otherwise `undefined`. -/
def getMockImplementation {α : Type} (r : Registry α) (n : String) : Slot α :=
  match List.lookup n r with
  | Option.some impl => Slot.own impl
  | Option.none => if n ∈ objectProtoKeys then Slot.inherited else Slot.absent

/-- `hasMock(fnName)` as `src/src/mock.ts` realises it:
`fnName in globalThis.__SERVER_FN_MOCKS__` — the `in` operator consults own
keys and then the prototype chain. -/
def hasMock {α : Type} (r : Registry α) (n : String) : Bool :=
  (List.lookup n r).isSome || decide (n ∈ objectProtoKeys)

/-- `clearMocks()` as `src/src/mock.ts` realises it: reassign a fresh `{}` —
all own entries are dropped, but the new object literal still inherits
`Object.prototype`. -/
def clearMocks {α : Type} (_r : Registry α) : Registry α := []

/-- `mockServerFn(serverFn, mockImpl, _fnName?)` from `src/src/mock.ts`:
`name = _fnName || serverFn.name`, then the entry is stored unconditionally —
there is no validation of the computed key. -/
def mockServerFn {α : Type} (r : Registry α) (ownName : String) (mockImpl : α)
    (fnName : Option String) : Registry α :=
  Registry.set r (jsStringOr fnName ownName) mockImpl

end GlobalRegistry

/-! ## JS string helpers used by the plugin guard -/

def charsPrefixOf : List Char → List Char → Bool
  | [], _ => true
  | _ :: _, [] => false
  | a :: as, b :: bs => a == b && charsPrefixOf as bs

def charsContains (hay : List Char) (needle : List Char) : Bool :=
  match hay with
  | [] => needle.isEmpty
  | _ :: t => charsPrefixOf needle hay || charsContains t needle

/-- JS `s.includes(sub)`. -/
def jsIncludes (s : String) (sub : String) : Bool :=
  charsContains s.toList sub.toList

/-- JS suffix test: `s` ends with `suffix`. -/
def jsEndsWith (s : String) (suffix : String) : Bool :=
  charsPrefixOf suffix.toList.reverse s.toList.reverse

/-- The regex `\.[jt]sx?$` from the transform guard of `src/unnamed/part_001`:
it is end-anchored only, hence a suffix test for the four source extensions. -/
def matchesSourceExt (id : String) : Bool :=
  jsEndsWith id ".js" || jsEndsWith id ".jsx" || jsEndsWith id ".ts" || jsEndsWith id ".tsx"

/-! ## Babel AST fragment (`@babel/types` constructors used in `src/unnamed/part_001`) -/

/-- A declarator's left-hand side: a plain identifier or anything else
(`t.isIdentifier(path.node.id)` is the only inspection performed). -/
inductive LVal : Type where
  | lid (name : String)
  | lother

mutual

inductive Expr : Type where
  | identifier (name : String)
  | stringLiteral (value : String)
  | objectExpression (props : ExprList)
  | memberExpression (obj : Expr) (property : String)
  | callExpression (callee : Expr) (args : ExprList)
  | newExpression (callee : Expr) (args : ExprList)
  | arrowFunctionExpression (params : List String) (body : Stmt)
  | logicalExpression (op : String) (left : Expr) (right : Expr)

inductive ExprList : Type where
  | nil
  | cons (head : Expr) (tail : ExprList)

inductive OptExpr : Type where
  | none
  | some (e : Expr)

inductive Declarator : Type where
  | mk (id : LVal) (init : OptExpr)

inductive DeclList : Type where
  | nil
  | cons (head : Declarator) (tail : DeclList)

inductive Stmt : Type where
  | blockStatement (body : StmtList)
  | variableDeclaration (kind : String) (decls : DeclList)
  | ifStatement (test : Expr) (consequent : Stmt) (alternate : Stmt)
  | returnStatement (argument : Expr)
  | throwStatement (argument : Expr)
  | expressionStatement (e : Expr)
  | importDeclaration (specifiers : List (String × String)) (source : String)
  | exportNamedDeclaration (decl : Stmt)
  | emptyStatement

inductive StmtList : Type where
  | nil
  | cons (head : Stmt) (tail : StmtList)

end

def ExprList.length : ExprList → Nat
  | .nil => 0
  | .cons _ t => t.length + 1

/-! ## Server-function classifier (`src/unnamed/part_001`, chain walk) -/

/-- The chain walk of the second pass: starting from a declarator's
initializer, a call whose callee is the plain identifier `serverFnName`
classifies positive; a call whose callee is a member access descends into the
member's object; anything else (including a call whose callee is an
identifier with a different name) breaks the chain and classifies negative. -/
def isServerFn (serverFnName : String) : Expr → Bool
  | Expr.callExpression callee _args =>
    match callee with
    | Expr.identifier n => n = serverFnName
    | Expr.memberExpression obj _p => isServerFn serverFnName obj
    | _ => false
  | _ => false

/-- The initializer may be absent (`let current = path.node.init` with
`t.isCallExpression(undefined) = false`). -/
def isServerFnInit (serverFnName : String) : OptExpr → Bool
  | OptExpr.none => false
  | OptExpr.some e => isServerFn serverFnName e

/-- Spec-side restatement of the classifier (from the spec's words, for the
refinement theorem of claim C2): the initializer is a chain of call
expressions whose innermost callee is a plain identifier equal to the
configured factory name, descending through member-access callees. -/
inductive FactoryChain (serverFnName : String) : Expr → Prop where
  | base (args : ExprList) :
      FactoryChain serverFnName (Expr.callExpression (Expr.identifier serverFnName) args)
  | step (obj : Expr) (property : String) (args : ExprList) :
      FactoryChain serverFnName obj →
      FactoryChain serverFnName
        (Expr.callExpression (Expr.memberExpression obj property) args)

/-! ## Scan pass (`src/unnamed/part_001`, first traversal)

The first traversal visits every call expression; a call whose callee is the
plain identifier `mockServerFn`, with exactly two arguments the first of
which is a plain identifier, has that identifier's name recorded in the
session set and a string literal of the name pushed as a third argument.
`scanNames*` collects the recorded names in traversal order and `scanRw*`
performs the mutation; the scan changed the tree exactly when it recorded at
least one name. -/

mutual

def scanNamesE : Expr → List String
  | .identifier _ => []
  | .stringLiteral _ => []
  | .objectExpression ps => scanNamesEL ps
  | .memberExpression o _ => scanNamesE o
  | .callExpression c a =>
    match c, a with
    | .identifier "mockServerFn", .cons (.identifier x) (.cons m .nil) =>
      x :: scanNamesE m
    | c, a => scanNamesE c ++ scanNamesEL a
  | .newExpression c a => scanNamesE c ++ scanNamesEL a
  | .arrowFunctionExpression _ b => scanNamesS b
  | .logicalExpression _ l r => scanNamesE l ++ scanNamesE r

def scanNamesEL : ExprList → List String
  | .nil => []
  | .cons h t => scanNamesE h ++ scanNamesEL t

def scanNamesOE : OptExpr → List String
  | .none => []
  | .some e => scanNamesE e

def scanNamesD : Declarator → List String
  | .mk _ i => scanNamesOE i

def scanNamesDL : DeclList → List String
  | .nil => []
  | .cons h t => scanNamesD h ++ scanNamesDL t

def scanNamesS : Stmt → List String
  | .blockStatement b => scanNamesSL b
  | .variableDeclaration _ ds => scanNamesDL ds
  | .ifStatement t c a => scanNamesE t ++ scanNamesS c ++ scanNamesS a
  | .returnStatement e => scanNamesE e
  | .throwStatement e => scanNamesE e
  | .expressionStatement e => scanNamesE e
  | .importDeclaration _ _ => []
  | .exportNamedDeclaration d => scanNamesS d
  | .emptyStatement => []

def scanNamesSL : StmtList → List String
  | .nil => []
  | .cons h t => scanNamesS h ++ scanNamesSL t

end

mutual

def scanRwE : Expr → Expr
  | .identifier n => .identifier n
  | .stringLiteral s => .stringLiteral s
  | .objectExpression ps => .objectExpression (scanRwEL ps)
  | .memberExpression o p => .memberExpression (scanRwE o) p
  | .callExpression c a =>
    match c, a with
    | .identifier "mockServerFn", .cons (.identifier x) (.cons m .nil) =>
      .callExpression (.identifier "mockServerFn")
        (.cons (.identifier x) (.cons (scanRwE m) (.cons (.stringLiteral x) .nil)))
    | c, a => .callExpression (scanRwE c) (scanRwEL a)
  | .newExpression c a => .newExpression (scanRwE c) (scanRwEL a)
  | .arrowFunctionExpression ps b => .arrowFunctionExpression ps (scanRwS b)
  | .logicalExpression op l r => .logicalExpression op (scanRwE l) (scanRwE r)

def scanRwEL : ExprList → ExprList
  | .nil => .nil
  | .cons h t => .cons (scanRwE h) (scanRwEL t)

def scanRwOE : OptExpr → OptExpr
  | .none => .none
  | .some e => .some (scanRwE e)

def scanRwD : Declarator → Declarator
  | .mk i e => .mk i (scanRwOE e)

def scanRwDL : DeclList → DeclList
  | .nil => .nil
  | .cons h t => .cons (scanRwD h) (scanRwDL t)

def scanRwS : Stmt → Stmt
  | .blockStatement b => .blockStatement (scanRwSL b)
  | .variableDeclaration k ds => .variableDeclaration k (scanRwDL ds)
  | .ifStatement t c a => .ifStatement (scanRwE t) (scanRwS c) (scanRwS a)
  | .returnStatement e => .returnStatement (scanRwE e)
  | .throwStatement e => .throwStatement (scanRwE e)
  | .expressionStatement e => .expressionStatement (scanRwE e)
  | .importDeclaration sp src => .importDeclaration sp src
  | .exportNamedDeclaration d => .exportNamedDeclaration (scanRwS d)
  | .emptyStatement => .emptyStatement

def scanRwSL : StmtList → StmtList
  | .nil => .nil
  | .cons h t => .cons (scanRwS h) (scanRwSL t)

end

/-! ## Declaration rewriter (`src/unnamed/part_001`, second traversal) -/

/-- The replacement initializer built for a mocked server function `fnName`
(transcribed from the `t.arrowFunctionExpression` construction):
an arrow function of one parameter `args` whose body binds
`mockImpl = getMockImplementation("fnName")`, returns
`mockImpl(args ?? {})` when `mockImpl` is truthy and otherwise throws
`new Error("No mock implementation found for fnName")`. -/
def rewrittenInit (fnName : String) : Expr :=
  Expr.arrowFunctionExpression ["args"]
    (Stmt.blockStatement
      (StmtList.cons
        (Stmt.variableDeclaration "const"
          (DeclList.cons
            (Declarator.mk (LVal.lid "mockImpl")
              (OptExpr.some
                (Expr.callExpression (Expr.identifier "getMockImplementation")
                  (ExprList.cons (Expr.stringLiteral fnName) ExprList.nil))))
            DeclList.nil))
        (StmtList.cons
          (Stmt.ifStatement (Expr.identifier "mockImpl")
            (Stmt.returnStatement
              (Expr.callExpression (Expr.identifier "mockImpl")
                (ExprList.cons
                  (Expr.logicalExpression "??" (Expr.identifier "args")
                    (Expr.objectExpression ExprList.nil))
                  ExprList.nil)))
            (Stmt.throwStatement
              (Expr.newExpression (Expr.identifier "Error")
                (ExprList.cons
                  (Expr.stringLiteral ("No mock implementation found for " ++ fnName))
                  ExprList.nil))))
          StmtList.nil)))

/-- The import declaration unshifted onto the program body for every
rewritten declaration (`t.importDeclaration` with one `t.importSpecifier`). -/
def mockImport : Stmt :=
  Stmt.importDeclaration [("getMockImplementation", "getMockImplementation")]
    "tanstack-mock-server-fn"

/-! The second traversal visits every variable declarator; one whose id is a
plain identifier in the session set and whose initializer classifies positive
has its initializer replaced by `rewrittenInit` (and one import unshifted —
counted by `cnt*` below).  Babel additionally descends into the replacement
itself; that descent performs no further rewrite unless the configured
factory name is the injected lookup binding `getMockImplementation` (in which
case Babel's requeue does not terminate), so the embedding omits it. -/

mutual

def rwE (fns : List String) (sfn : String) : Expr → Expr
  | .identifier n => .identifier n
  | .stringLiteral s => .stringLiteral s
  | .objectExpression ps => .objectExpression (rwEL fns sfn ps)
  | .memberExpression o p => .memberExpression (rwE fns sfn o) p
  | .callExpression c a => .callExpression (rwE fns sfn c) (rwEL fns sfn a)
  | .newExpression c a => .newExpression (rwE fns sfn c) (rwEL fns sfn a)
  | .arrowFunctionExpression ps b => .arrowFunctionExpression ps (rwS fns sfn b)
  | .logicalExpression op l r => .logicalExpression op (rwE fns sfn l) (rwE fns sfn r)

def rwEL (fns : List String) (sfn : String) : ExprList → ExprList
  | .nil => .nil
  | .cons h t => .cons (rwE fns sfn h) (rwEL fns sfn t)

def rwD (fns : List String) (sfn : String) : Declarator → Declarator
  | .mk (.lid n) (.some i) =>
    if n ∈ fns ∧ isServerFn sfn i = true then .mk (.lid n) (.some (rewrittenInit n))
    else .mk (.lid n) (.some (rwE fns sfn i))
  | .mk .lother (.some i) => .mk .lother (.some (rwE fns sfn i))
  | .mk v .none => .mk v .none

def rwDL (fns : List String) (sfn : String) : DeclList → DeclList
  | .nil => .nil
  | .cons h t => .cons (rwD fns sfn h) (rwDL fns sfn t)

def rwS (fns : List String) (sfn : String) : Stmt → Stmt
  | .blockStatement b => .blockStatement (rwSL fns sfn b)
  | .variableDeclaration k ds => .variableDeclaration k (rwDL fns sfn ds)
  | .ifStatement t c a => .ifStatement (rwE fns sfn t) (rwS fns sfn c) (rwS fns sfn a)
  | .returnStatement e => .returnStatement (rwE fns sfn e)
  | .throwStatement e => .throwStatement (rwE fns sfn e)
  | .expressionStatement e => .expressionStatement (rwE fns sfn e)
  | .importDeclaration sp src => .importDeclaration sp src
  | .exportNamedDeclaration d => .exportNamedDeclaration (rwS fns sfn d)
  | .emptyStatement => .emptyStatement

def rwSL (fns : List String) (sfn : String) : StmtList → StmtList
  | .nil => .nil
  | .cons h t => .cons (rwS fns sfn h) (rwSL fns sfn t)

end

mutual

def cntE (fns : List String) (sfn : String) : Expr → Nat
  | .identifier _ => 0
  | .stringLiteral _ => 0
  | .objectExpression ps => cntEL fns sfn ps
  | .memberExpression o _ => cntE fns sfn o
  | .callExpression c a => cntE fns sfn c + cntEL fns sfn a
  | .newExpression c a => cntE fns sfn c + cntEL fns sfn a
  | .arrowFunctionExpression _ b => cntS fns sfn b
  | .logicalExpression _ l r => cntE fns sfn l + cntE fns sfn r

def cntEL (fns : List String) (sfn : String) : ExprList → Nat
  | .nil => 0
  | .cons h t => cntE fns sfn h + cntEL fns sfn t

def cntD (fns : List String) (sfn : String) : Declarator → Nat
  | .mk (.lid n) (.some i) =>
    if n ∈ fns ∧ isServerFn sfn i = true then 1 else cntE fns sfn i
  | .mk .lother (.some i) => cntE fns sfn i
  | .mk _ .none => 0

def cntDL (fns : List String) (sfn : String) : DeclList → Nat
  | .nil => 0
  | .cons h t => cntD fns sfn h + cntDL fns sfn t

def cntS (fns : List String) (sfn : String) : Stmt → Nat
  | .blockStatement b => cntSL fns sfn b
  | .variableDeclaration _ ds => cntDL fns sfn ds
  | .ifStatement t c a => cntE fns sfn t + cntS fns sfn c + cntS fns sfn a
  | .returnStatement e => cntE fns sfn e
  | .throwStatement e => cntE fns sfn e
  | .expressionStatement e => cntE fns sfn e
  | .importDeclaration _ _ => 0
  | .exportNamedDeclaration d => cntS fns sfn d
  | .emptyStatement => 0

def cntSL (fns : List String) (sfn : String) : StmtList → Nat
  | .nil => 0
  | .cons h t => cntS fns sfn h + cntSL fns sfn t

end

/-! ## Transform orchestrator (`src/unnamed/part_001`, `transform(code, id)`) -/

/-- One `unshiftContainer` of the mock import per rewritten declaration. -/
def prependImports : Nat → StmtList → StmtList
  | 0, p => p
  | k + 1, p => StmtList.cons mockImport (prependImports k p)

/-- `mockedFns.add(fnName)` for each name found by the scan pass
(JS `Set.add`: already-present names are not duplicated). -/
def insertAll (fns : List String) (names : List String) : List String :=
  names.foldl (fun acc x => acc.insert x) fns

/-- The body of the `try` block: scan pass (collect and mutate), then the
declarator pass over the scanned tree with the enlarged session set, with one
injected import unshifted per rewrite; `needsTransform` records whether either pass
changed anything.  Returns the resulting tree, the updated session set and
the `needsTransform` flag. -/
def transformUnit (fns : List String) (sfn : String) (p : StmtList) :
    StmtList × List String × Bool :=
  let names := scanNamesSL p
  let p1 := scanRwSL p
  let fns1 := insertAll fns names
  let k := cntSL fns1 sfn p1
  (prependImports k (rwSL fns1 sfn p1), fns1, !names.isEmpty || !(k == 0))

/-- The full transform hook: the guard skips disabled plugins, ids inside
`node_modules` and ids without a recognized source extension; a parse failure
is caught and converted to the no-change signal (`null`); otherwise the unit
is processed and re-rendered only when `needsTransform` is set.  The first
component is `Option.none` exactly when the hook returns `null` (source
passes through unchanged); the second is the session set after the call. -/
def pluginTransform (enabled : Bool) (sfn : String) (fns : List String) (id : String)
    (parsed : Except String StmtList) : Option StmtList × List String :=
  if !enabled || jsIncludes id "node_modules" || !matchesSourceExt id then
    (Option.none, fns)
  else
    match parsed with
    | Except.error _ => (Option.none, fns)
    | Except.ok p =>
      let r := transformUnit fns sfn p
      (if r.2.2 then Option.some r.1 else Option.none, r.2.1)

/-! ## Runtime semantics of the generated fallback function

A small call-by-value semantics for the AST fragment the rewriter generates.
Runtime values separate plain data (`Value`) from callables (`RtVal.fn`);
`Value.ext` stands for opaque caller-supplied data (anything that is neither
nullish nor one of the shapes the generated code builds), and mock
implementations are pure functions on values.  Constructs the generated code
never contains (closures as values, member reads, non-empty object literals)
evaluate to a stuck error. -/

inductive Value : Type where
  | undef
  | nullv
  | str (s : String)
  | emptyObject
  | errObj (message : String)
  | ext (tag : Nat)

inductive RtVal : Type where
  | val (v : Value)
  | fn (f : Value → RtVal)

inductive EvalErr : Type where
  | thrown (v : Value)
  | stuck (msg : String)

/-- JS truthiness for the values this fragment can produce; `ext` models
opaque non-nullish data, and the only truthiness test the generated code
performs (`if (mockImpl)`) sees a function or `undefined`. -/
def rtTruthy : RtVal → Bool
  | RtVal.val Value.undef => false
  | RtVal.val Value.nullv => false
  | RtVal.val (Value.str s) => !(s = "")
  | RtVal.val Value.emptyObject => true
  | RtVal.val (Value.errObj _) => true
  | RtVal.val (Value.ext _) => true
  | RtVal.fn _ => true

/-- JS nullish test (`??` consults only `null` / `undefined`). -/
def rtNullish : RtVal → Bool
  | RtVal.val Value.undef => true
  | RtVal.val Value.nullv => true
  | _ => false

abbrev Env : Type := List (String × RtVal)

mutual

def evalExpr (env : Env) : Expr → Except EvalErr RtVal
  | .identifier n =>
    match List.lookup n env with
    | Option.some v => Except.ok v
    | Option.none => Except.error (EvalErr.stuck "unbound identifier")
  | .stringLiteral s => Except.ok (RtVal.val (Value.str s))
  | .objectExpression .nil => Except.ok (RtVal.val Value.emptyObject)
  | .objectExpression (.cons _ _) => Except.error (EvalErr.stuck "object literal")
  | .memberExpression _ _ => Except.error (EvalErr.stuck "member read")
  | .callExpression c a => do
    let cv ← evalExpr env c
    let avs ← evalArgs env a
    match cv with
    | RtVal.fn f =>
      match avs with
      | [] => Except.ok (f Value.undef)
      | RtVal.val v :: _ => Except.ok (f v)
      | RtVal.fn _ :: _ => Except.error (EvalErr.stuck "function argument")
    | RtVal.val _ => Except.error (EvalErr.stuck "call of non-function")
  | .newExpression c a =>
    match c with
    | .identifier "Error" => do
      let avs ← evalArgs env a
      match avs with
      | RtVal.val (Value.str m) :: _ => Except.ok (RtVal.val (Value.errObj m))
      | _ => Except.error (EvalErr.stuck "Error argument")
    | _ => Except.error (EvalErr.stuck "new of non-Error")
  | .arrowFunctionExpression _ _ => Except.error (EvalErr.stuck "closure value")
  | .logicalExpression op l r =>
    if op = "??" then do
      let lv ← evalExpr env l
      if rtNullish lv then evalExpr env r else Except.ok lv
    else Except.error (EvalErr.stuck "logical operator")

def evalArgs (env : Env) : ExprList → Except EvalErr (List RtVal)
  | .nil => Except.ok []
  | .cons h t => do
    let hv ← evalExpr env h
    let tv ← evalArgs env t
    Except.ok (hv :: tv)

end

inductive Outcome : Type where
  | normal (env : Env)
  | ret (v : RtVal)

mutual

def evalStmt (env : Env) : Stmt → Except EvalErr Outcome
  | .blockStatement b => evalStmts env b
  | .variableDeclaration _ ds => do
    let env1 ← evalDecls env ds
    Except.ok (Outcome.normal env1)
  | .ifStatement t c a => do
    let tv ← evalExpr env t
    if rtTruthy tv then evalStmt env c else evalStmt env a
  | .returnStatement e => do
    let v ← evalExpr env e
    Except.ok (Outcome.ret v)
  | .throwStatement e => do
    let v ← evalExpr env e
    match v with
    | RtVal.val w => Except.error (EvalErr.thrown w)
    | RtVal.fn _ => Except.error (EvalErr.stuck "throw of function")
  | .expressionStatement e => do
    let _ ← evalExpr env e
    Except.ok (Outcome.normal env)
  | .importDeclaration _ _ => Except.ok (Outcome.normal env)
  | .exportNamedDeclaration d => evalStmt env d
  | .emptyStatement => Except.ok (Outcome.normal env)

def evalStmts (env : Env) : StmtList → Except EvalErr Outcome
  | .nil => Except.ok (Outcome.normal env)
  | .cons h t => do
    let o ← evalStmt env h
    match o with
    | Outcome.normal env1 => evalStmts env1 t
    | Outcome.ret v => Except.ok (Outcome.ret v)

def evalDecls (env : Env) : DeclList → Except EvalErr Env
  | .nil => Except.ok env
  | .cons (Declarator.mk (LVal.lid n) (OptExpr.some i)) t => do
    let v ← evalExpr env i
    evalDecls ((n, v) :: env) t
  | .cons (Declarator.mk (LVal.lid n) OptExpr.none) t =>
    evalDecls ((n, RtVal.val Value.undef) :: env) t
  | .cons (Declarator.mk LVal.lother _) _ =>
    Except.error (EvalErr.stuck "destructuring declarator")

end

/-- The environment in which the generated body runs: the registry-lookup
capability imported by the rewriter, bound to a native function that performs
`getMockImplementation` on the current registry. -/
def registryEnv (reg : Registry (Value → Value)) : Env :=
  [("getMockImplementation", RtVal.fn (fun v =>
    match v with
    | Value.str s =>
      match getMockImplementation reg s with
      | Option.some m => RtVal.fn (fun a => RtVal.val (m a))
      | Option.none => RtVal.val Value.undef
    | _ => RtVal.val Value.undef))]

/-- Invoke an arrow function of one parameter on one argument: bind the
parameter over the outer environment and run the body; falling off the end
yields `undefined`. -/
def callArrow (f : Expr) (outer : Env) (arg : Value) : Except EvalErr RtVal :=
  match f with
  | Expr.arrowFunctionExpression (p :: _) body =>
    match evalStmt ((p, RtVal.val arg) :: outer) body with
    | Except.ok (Outcome.ret v) => Except.ok v
    | Except.ok (Outcome.normal _) => Except.ok (RtVal.val Value.undef)
    | Except.error e => Except.error e
  | _ => Except.error (EvalErr.stuck "not a unary arrow")

/-- Call the rewritten declaration for `fnName` with one argument under a
given registry state. -/
def callRewritten (reg : Registry (Value → Value)) (fnName : String) (arg : Value) :
    Except EvalErr RtVal :=
  callArrow (rewrittenInit fnName) (registryEnv reg) arg

/-- The default applied by the generated `args ?? {}`. -/
def jsNullishDefault (a : Value) : Value :=
  match a with
  | Value.undef => Value.emptyObject
  | Value.nullv => Value.emptyObject
  | _ => a

/-- Number of copies of the injected registry-lookup import declaration at
the top level of a unit's body. -/
def countMockImports : StmtList → Nat
  | StmtList.nil => 0
  | StmtList.cons
      (Stmt.importDeclaration [("getMockImplementation", "getMockImplementation")]
        "tanstack-mock-server-fn") t => 1 + countMockImports t
  | StmtList.cons _ t => countMockImports t

/-- Negation of the scan-pass match condition at one call node (the shape of
the no-match hypothesis produced by splitting the scan functions). -/
def NoHit (c : Expr) (a : ExprList) : Prop :=
  ∀ (x : String) (m : Expr), c = Expr.identifier "mockServerFn" →
    a = ExprList.cons (Expr.identifier x) (ExprList.cons m ExprList.nil) → False

/-! ## Helper lemmas about the scan pass -/

theorem scanRwE_identifier_inv {e : Expr} {nm : String}
    (h : scanRwE e = Expr.identifier nm) : e = Expr.identifier nm := by
  cases e with
  | identifier n => simpa [scanRwE] using h
  | callExpression c a =>
    unfold scanRwE at h
    split at h <;> simp at h
  | stringLiteral s => simp [scanRwE] at h
  | objectExpression ps => simp [scanRwE] at h
  | memberExpression o p => simp [scanRwE] at h
  | newExpression c a => simp [scanRwE] at h
  | arrowFunctionExpression ps b => simp [scanRwE] at h
  | logicalExpression op l r => simp [scanRwE] at h

theorem scanRwEL_nil_inv {l : ExprList} (h : scanRwEL l = ExprList.nil) :
    l = ExprList.nil := by
  cases l <;> simp [scanRwEL] at h ⊢

theorem scanRwEL_cons_inv {l : ExprList} {h0 : Expr} {t0 : ExprList}
    (h : scanRwEL l = ExprList.cons h0 t0) :
    ∃ h1 t1, l = ExprList.cons h1 t1 ∧ scanRwE h1 = h0 ∧ scanRwEL t1 = t0 := by
  cases l with
  | nil => simp [scanRwEL] at h
  | cons h1 t1 =>
    simp only [scanRwEL, ExprList.cons.injEq] at h
    exact ⟨h1, t1, rfl, h.1, h.2⟩

theorem rwE_identifier_inv {fns : List String} {sfn : String} {e : Expr} {nm : String}
    (h : rwE fns sfn e = Expr.identifier nm) : e = Expr.identifier nm := by
  cases e <;> simp [rwE] at h ⊢
  exact h

theorem rwEL_nil_inv {fns : List String} {sfn : String} {l : ExprList}
    (h : rwEL fns sfn l = ExprList.nil) : l = ExprList.nil := by
  cases l <;> simp [rwEL] at h ⊢

theorem rwEL_cons_inv {fns : List String} {sfn : String} {l : ExprList} {h0 : Expr}
    {t0 : ExprList} (h : rwEL fns sfn l = ExprList.cons h0 t0) :
    ∃ h1 t1, l = ExprList.cons h1 t1 ∧ rwE fns sfn h1 = h0 ∧ rwEL fns sfn t1 = t0 := by
  cases l with
  | nil => simp [rwEL] at h
  | cons h1 t1 =>
    simp only [rwEL, ExprList.cons.injEq] at h
    exact ⟨h1, t1, rfl, h.1, h.2⟩

theorem scanNamesE_call_miss {c : Expr} {a : ExprList} (hno : NoHit c a) :
    scanNamesE (Expr.callExpression c a) = scanNamesE c ++ scanNamesEL a := by
  rw [scanNamesE]
  exact hno

theorem scanRwE_call_miss {c : Expr} {a : ExprList} (hno : NoHit c a) :
    scanRwE (Expr.callExpression c a) = Expr.callExpression (scanRwE c) (scanRwEL a) := by
  rw [scanRwE]
  exact hno

theorem hit_or_miss (c : Expr) (a : ExprList) :
    (∃ x m, c = Expr.identifier "mockServerFn"
      ∧ a = ExprList.cons (Expr.identifier x) (ExprList.cons m ExprList.nil)) ∨ NoHit c a := by
  by_cases hc : ∃ x m, c = Expr.identifier "mockServerFn"
      ∧ a = ExprList.cons (Expr.identifier x) (ExprList.cons m ExprList.nil)
  · exact Or.inl hc
  · refine Or.inr ?_
    intro x m h1 h2
    exact hc ⟨x, m, h1, h2⟩

theorem noHit_scanRw {c : Expr} {a : ExprList} (hno : NoHit c a) :
    NoHit (scanRwE c) (scanRwEL a) := by
  intro x m hc ha
  obtain ⟨a0, t0, rfl, ha0, ht0⟩ := scanRwEL_cons_inv ha
  obtain ⟨a1, t1, rfl, _, ht1⟩ := scanRwEL_cons_inv ht0
  exact hno x a1 (scanRwE_identifier_inv hc)
    (by rw [scanRwE_identifier_inv ha0, scanRwEL_nil_inv ht1])

theorem noHit_rw {fns : List String} {sfn : String} {c : Expr} {a : ExprList}
    (hno : NoHit c a) : NoHit (rwE fns sfn c) (rwEL fns sfn a) := by
  intro x m hc ha
  obtain ⟨a0, t0, rfl, ha0, ht0⟩ := rwEL_cons_inv ha
  obtain ⟨a1, t1, rfl, _, ht1⟩ := rwEL_cons_inv ht0
  exact hno x a1 (rwE_identifier_inv hc)
    (by rw [rwE_identifier_inv ha0, rwEL_nil_inv ht1])

mutual

theorem scanFixE : ∀ e : Expr, scanNamesE (scanRwE e) = [] ∧ scanRwE (scanRwE e) = scanRwE e
  | .identifier n => by simp [scanRwE, scanNamesE]
  | .stringLiteral s => by simp [scanRwE, scanNamesE]
  | .objectExpression ps => by
    have ih := scanFixEL ps
    simp [scanRwE, scanNamesE, ih.1, ih.2]
  | .memberExpression o p => by
    have ih := scanFixE o
    simp [scanRwE, scanNamesE, ih.1, ih.2]
  | .callExpression c a => by
    rcases hit_or_miss c a with ⟨x, m, rfl, rfl⟩ | hno
    · have ih := scanFixE m
      constructor
      · simp [scanRwE, scanNamesE, scanNamesEL, ih.1]
      · simp [scanRwE, scanRwEL, ih.2]
    · have ihc := scanFixE c
      have iha := scanFixEL a
      rw [scanRwE_call_miss hno]
      constructor
      · rw [scanNamesE_call_miss (noHit_scanRw hno)]
        simp [ihc.1, iha.1]
      · rw [scanRwE_call_miss (noHit_scanRw hno)]
        simp [ihc.2, iha.2]
  | .newExpression c a => by
    have ihc := scanFixE c
    have iha := scanFixEL a
    simp [scanRwE, scanNamesE, ihc.1, ihc.2, iha.1, iha.2]
  | .arrowFunctionExpression ps b => by
    have ih := scanFixS b
    simp [scanRwE, scanNamesE, ih.1, ih.2]
  | .logicalExpression op l r => by
    have ihl := scanFixE l
    have ihr := scanFixE r
    simp [scanRwE, scanNamesE, ihl.1, ihl.2, ihr.1, ihr.2]

theorem scanFixEL : ∀ l : ExprList,
    scanNamesEL (scanRwEL l) = [] ∧ scanRwEL (scanRwEL l) = scanRwEL l
  | .nil => by simp [scanRwEL, scanNamesEL]
  | .cons h t => by
    have ih := scanFixE h
    have iht := scanFixEL t
    simp [scanRwEL, scanNamesEL, ih.1, ih.2, iht.1, iht.2]

theorem scanFixOE : ∀ l : OptExpr,
    scanNamesOE (scanRwOE l) = [] ∧ scanRwOE (scanRwOE l) = scanRwOE l
  | .none => by simp [scanRwOE, scanNamesOE]
  | .some e => by
    have ih := scanFixE e
    simp [scanRwOE, scanNamesOE, ih.1, ih.2]

theorem scanFixD : ∀ d : Declarator,
    scanNamesD (scanRwD d) = [] ∧ scanRwD (scanRwD d) = scanRwD d
  | .mk i e => by
    have ih := scanFixOE e
    simp [scanRwD, scanNamesD, ih.1, ih.2]

theorem scanFixDL : ∀ l : DeclList,
    scanNamesDL (scanRwDL l) = [] ∧ scanRwDL (scanRwDL l) = scanRwDL l
  | .nil => by simp [scanRwDL, scanNamesDL]
  | .cons h t => by
    have ih := scanFixD h
    have iht := scanFixDL t
    simp [scanRwDL, scanNamesDL, ih.1, ih.2, iht.1, iht.2]

theorem scanFixS : ∀ s : Stmt, scanNamesS (scanRwS s) = [] ∧ scanRwS (scanRwS s) = scanRwS s
  | .blockStatement b => by
    have ih := scanFixSL b
    simp [scanRwS, scanNamesS, ih.1, ih.2]
  | .variableDeclaration k ds => by
    have ih := scanFixDL ds
    simp [scanRwS, scanNamesS, ih.1, ih.2]
  | .ifStatement t c a => by
    have iht := scanFixE t
    have ihc := scanFixS c
    have iha := scanFixS a
    simp [scanRwS, scanNamesS, iht.1, iht.2, ihc.1, ihc.2, iha.1, iha.2]
  | .returnStatement e => by
    have ih := scanFixE e
    simp [scanRwS, scanNamesS, ih.1, ih.2]
  | .throwStatement e => by
    have ih := scanFixE e
    simp [scanRwS, scanNamesS, ih.1, ih.2]
  | .expressionStatement e => by
    have ih := scanFixE e
    simp [scanRwS, scanNamesS, ih.1, ih.2]
  | .importDeclaration sp src => by simp [scanRwS, scanNamesS]
  | .exportNamedDeclaration d => by
    have ih := scanFixS d
    simp [scanRwS, scanNamesS, ih.1, ih.2]
  | .emptyStatement => by simp [scanRwS, scanNamesS]

theorem scanFixSL : ∀ l : StmtList,
    scanNamesSL (scanRwSL l) = [] ∧ scanRwSL (scanRwSL l) = scanRwSL l
  | .nil => by simp [scanRwSL, scanNamesSL]
  | .cons h t => by
    have ih := scanFixS h
    have iht := scanFixSL t
    simp [scanRwSL, scanNamesSL, ih.1, ih.2, iht.1, iht.2]

end

theorem scanNamesE_rewrittenInit (n : String) : scanNamesE (rewrittenInit n) = [] := by
  simp [rewrittenInit, scanNamesE, scanNamesS, scanNamesSL, scanNamesDL, scanNamesD,
    scanNamesOE, scanNamesEL]

theorem scanRwE_rewrittenInit (n : String) : scanRwE (rewrittenInit n) = rewrittenInit n := by
  simp [rewrittenInit, scanRwE, scanRwS, scanRwSL, scanRwDL, scanRwD, scanRwOE, scanRwEL]

mutual

theorem scanCleanRwE (fns : List String) (sfn : String) :
    ∀ e : Expr, scanNamesE e = [] →
      scanNamesE (rwE fns sfn e) = [] ∧ scanRwE (rwE fns sfn e) = rwE fns sfn e
        ∧ scanRwE e = e
  | .identifier n, _ => by simp [rwE, scanRwE, scanNamesE]
  | .stringLiteral s, _ => by simp [rwE, scanRwE, scanNamesE]
  | .objectExpression ps, hcl => by
    have hps : scanNamesEL ps = [] := by simpa [scanNamesE] using hcl
    have ih := scanCleanRwEL fns sfn ps hps
    simp [rwE, scanRwE, scanNamesE, ih.1, ih.2.1, ih.2.2]
  | .memberExpression o p, hcl => by
    have ho : scanNamesE o = [] := by simpa [scanNamesE] using hcl
    have ih := scanCleanRwE fns sfn o ho
    simp [rwE, scanRwE, scanNamesE, ih.1, ih.2.1, ih.2.2]
  | .callExpression c a, hcl => by
    rcases hit_or_miss c a with ⟨x, m, rfl, rfl⟩ | hno
    · simp [scanNamesE] at hcl
    · rw [scanNamesE_call_miss hno] at hcl
      have hc : scanNamesE c = [] := (List.append_eq_nil.mp hcl).1
      have ha : scanNamesEL a = [] := (List.append_eq_nil.mp hcl).2
      have ihc := scanCleanRwE fns sfn c hc
      have iha := scanCleanRwEL fns sfn a ha
      refine ⟨?_, ?_, ?_⟩
      · rw [show rwE fns sfn (Expr.callExpression c a)
            = Expr.callExpression (rwE fns sfn c) (rwEL fns sfn a) from by simp [rwE]]
        rw [scanNamesE_call_miss (noHit_rw hno)]
        simp [ihc.1, iha.1]
      · rw [show rwE fns sfn (Expr.callExpression c a)
            = Expr.callExpression (rwE fns sfn c) (rwEL fns sfn a) from by simp [rwE]]
        rw [scanRwE_call_miss (noHit_rw hno), ihc.2.1, iha.2.1]
      · rw [scanRwE_call_miss hno, ihc.2.2, iha.2.2]
  | .newExpression c a, hcl => by
    have hc : scanNamesE c = [] := (List.append_eq_nil.mp (by simpa [scanNamesE] using hcl)).1
    have ha : scanNamesEL a = [] := (List.append_eq_nil.mp (by simpa [scanNamesE] using hcl)).2
    have ihc := scanCleanRwE fns sfn c hc
    have iha := scanCleanRwEL fns sfn a ha
    simp [rwE, scanRwE, scanNamesE, ihc.1, ihc.2.1, ihc.2.2, iha.1, iha.2.1, iha.2.2]
  | .arrowFunctionExpression ps b, hcl => by
    have hb : scanNamesS b = [] := by simpa [scanNamesE] using hcl
    have ih := scanCleanRwS fns sfn b hb
    simp [rwE, scanRwE, scanNamesE, ih.1, ih.2.1, ih.2.2]
  | .logicalExpression op l r, hcl => by
    have hl : scanNamesE l = [] := (List.append_eq_nil.mp (by simpa [scanNamesE] using hcl)).1
    have hr : scanNamesE r = [] := (List.append_eq_nil.mp (by simpa [scanNamesE] using hcl)).2
    have ihl := scanCleanRwE fns sfn l hl
    have ihr := scanCleanRwE fns sfn r hr
    simp [rwE, scanRwE, scanNamesE, ihl.1, ihl.2.1, ihl.2.2, ihr.1, ihr.2.1, ihr.2.2]

theorem scanCleanRwEL (fns : List String) (sfn : String) :
    ∀ l : ExprList, scanNamesEL l = [] →
      scanNamesEL (rwEL fns sfn l) = [] ∧ scanRwEL (rwEL fns sfn l) = rwEL fns sfn l
        ∧ scanRwEL l = l
  | .nil, _ => by simp [rwEL, scanRwEL, scanNamesEL]
  | .cons h t, hcl => by
    have hh : scanNamesE h = [] := (List.append_eq_nil.mp (by simpa [scanNamesEL] using hcl)).1
    have ht : scanNamesEL t = [] := (List.append_eq_nil.mp (by simpa [scanNamesEL] using hcl)).2
    have ih := scanCleanRwE fns sfn h hh
    have iht := scanCleanRwEL fns sfn t ht
    simp [rwEL, scanRwEL, scanNamesEL, ih.1, ih.2.1, ih.2.2, iht.1, iht.2.1, iht.2.2]

theorem scanCleanRwD (fns : List String) (sfn : String) :
    ∀ d : Declarator, scanNamesD d = [] →
      scanNamesD (rwD fns sfn d) = [] ∧ scanRwD (rwD fns sfn d) = rwD fns sfn d
        ∧ scanRwD d = d
  | .mk (.lid n) (.some i), hcl => by
    have hi : scanNamesE i = [] := by simpa [scanNamesD, scanNamesOE] using hcl
    have ih := scanCleanRwE fns sfn i hi
    by_cases hc : n ∈ fns ∧ isServerFn sfn i = true
    · simp [rwD, hc, scanNamesD, scanNamesOE, scanRwD, scanRwOE,
        scanNamesE_rewrittenInit, scanRwE_rewrittenInit, ih.2.2]
    · simp [rwD, hc, scanNamesD, scanNamesOE, scanRwD, scanRwOE, ih.1, ih.2.1, ih.2.2]
  | .mk .lother (.some i), hcl => by
    have hi : scanNamesE i = [] := by simpa [scanNamesD, scanNamesOE] using hcl
    have ih := scanCleanRwE fns sfn i hi
    simp [rwD, scanNamesD, scanNamesOE, scanRwD, scanRwOE, ih.1, ih.2.1, ih.2.2]
  | .mk v .none, _ => by
    cases v <;> simp [rwD, scanNamesD, scanNamesOE, scanRwD, scanRwOE]

theorem scanCleanRwDL (fns : List String) (sfn : String) :
    ∀ l : DeclList, scanNamesDL l = [] →
      scanNamesDL (rwDL fns sfn l) = [] ∧ scanRwDL (rwDL fns sfn l) = rwDL fns sfn l
        ∧ scanRwDL l = l
  | .nil, _ => by simp [rwDL, scanRwDL, scanNamesDL]
  | .cons h t, hcl => by
    have hh : scanNamesD h = [] := (List.append_eq_nil.mp (by simpa [scanNamesDL] using hcl)).1
    have ht : scanNamesDL t = [] := (List.append_eq_nil.mp (by simpa [scanNamesDL] using hcl)).2
    have ih := scanCleanRwD fns sfn h hh
    have iht := scanCleanRwDL fns sfn t ht
    simp [rwDL, scanRwDL, scanNamesDL, ih.1, ih.2.1, ih.2.2, iht.1, iht.2.1, iht.2.2]

theorem scanCleanRwS (fns : List String) (sfn : String) :
    ∀ s : Stmt, scanNamesS s = [] →
      scanNamesS (rwS fns sfn s) = [] ∧ scanRwS (rwS fns sfn s) = rwS fns sfn s
        ∧ scanRwS s = s
  | .blockStatement b, hcl => by
    have hb : scanNamesSL b = [] := by simpa [scanNamesS] using hcl
    have ih := scanCleanRwSL fns sfn b hb
    simp [rwS, scanRwS, scanNamesS, ih.1, ih.2.1, ih.2.2]
  | .variableDeclaration k ds, hcl => by
    have hd : scanNamesDL ds = [] := by simpa [scanNamesS] using hcl
    have ih := scanCleanRwDL fns sfn ds hd
    simp [rwS, scanRwS, scanNamesS, ih.1, ih.2.1, ih.2.2]
  | .ifStatement t c a, hcl => by
    have h' : scanNamesE t = [] ∧ scanNamesS c = [] ∧ scanNamesS a = [] := by
      simpa [scanNamesS] using hcl
    have iht := scanCleanRwE fns sfn t h'.1
    have ihc := scanCleanRwS fns sfn c h'.2.1
    have iha := scanCleanRwS fns sfn a h'.2.2
    simp [rwS, scanRwS, scanNamesS, iht.1, iht.2.1, iht.2.2, ihc.1, ihc.2.1, ihc.2.2,
      iha.1, iha.2.1, iha.2.2]
  | .returnStatement e, hcl => by
    have he : scanNamesE e = [] := by simpa [scanNamesS] using hcl
    have ih := scanCleanRwE fns sfn e he
    simp [rwS, scanRwS, scanNamesS, ih.1, ih.2.1, ih.2.2]
  | .throwStatement e, hcl => by
    have he : scanNamesE e = [] := by simpa [scanNamesS] using hcl
    have ih := scanCleanRwE fns sfn e he
    simp [rwS, scanRwS, scanNamesS, ih.1, ih.2.1, ih.2.2]
  | .expressionStatement e, hcl => by
    have he : scanNamesE e = [] := by simpa [scanNamesS] using hcl
    have ih := scanCleanRwE fns sfn e he
    simp [rwS, scanRwS, scanNamesS, ih.1, ih.2.1, ih.2.2]
  | .importDeclaration sp src, _ => by simp [rwS, scanRwS, scanNamesS]
  | .exportNamedDeclaration d, hcl => by
    have hd : scanNamesS d = [] := by simpa [scanNamesS] using hcl
    have ih := scanCleanRwS fns sfn d hd
    simp [rwS, scanRwS, scanNamesS, ih.1, ih.2.1, ih.2.2]
  | .emptyStatement, _ => by simp [rwS, scanRwS, scanNamesS]

theorem scanCleanRwSL (fns : List String) (sfn : String) :
    ∀ l : StmtList, scanNamesSL l = [] →
      scanNamesSL (rwSL fns sfn l) = [] ∧ scanRwSL (rwSL fns sfn l) = rwSL fns sfn l
        ∧ scanRwSL l = l
  | .nil, _ => by simp [rwSL, scanRwSL, scanNamesSL]
  | .cons h t, hcl => by
    have hh : scanNamesS h = [] := (List.append_eq_nil.mp (by simpa [scanNamesSL] using hcl)).1
    have ht : scanNamesSL t = [] := (List.append_eq_nil.mp (by simpa [scanNamesSL] using hcl)).2
    have ih := scanCleanRwS fns sfn h hh
    have iht := scanCleanRwSL fns sfn t ht
    simp [rwSL, scanRwSL, scanNamesSL, ih.1, ih.2.1, ih.2.2, iht.1, iht.2.1, iht.2.2]

end

theorem isServerFn_rwE (fns : List String) (sfn : String) :
    ∀ e : Expr, isServerFn sfn (rwE fns sfn e) = isServerFn sfn e
  | .identifier n => by simp [rwE, isServerFn]
  | .stringLiteral s => by simp [rwE, isServerFn]
  | .objectExpression ps => by simp [rwE, isServerFn]
  | .memberExpression o p => by simp [rwE, isServerFn]
  | .newExpression c a => by simp [rwE, isServerFn]
  | .arrowFunctionExpression ps b => by simp [rwE, isServerFn]
  | .logicalExpression op l r => by simp [rwE, isServerFn]
  | .callExpression (.identifier nm) a => by simp [rwE, isServerFn]
  | .callExpression (.memberExpression o p) a => by
    have ih := isServerFn_rwE fns sfn o
    simp [rwE, isServerFn, ih]
  | .callExpression (.stringLiteral s) a => by simp [rwE, isServerFn]
  | .callExpression (.objectExpression ps) a => by simp [rwE, isServerFn]
  | .callExpression (.callExpression c2 a2) a => by simp [rwE, isServerFn]
  | .callExpression (.newExpression c2 a2) a => by simp [rwE, isServerFn]
  | .callExpression (.arrowFunctionExpression ps b) a => by simp [rwE, isServerFn]
  | .callExpression (.logicalExpression op l r) a => by simp [rwE, isServerFn]

theorem rw_rewrittenInit (fns : List String) (sfn : String) (n : String)
    (h : sfn ≠ "getMockImplementation") :
    cntE fns sfn (rewrittenInit n) = 0 ∧ rwE fns sfn (rewrittenInit n) = rewrittenInit n := by
  have hid : ¬("mockImpl" ∈ fns ∧ isServerFn sfn
      (Expr.callExpression (Expr.identifier "getMockImplementation")
        (ExprList.cons (Expr.stringLiteral n) ExprList.nil)) = true) := by
    intro hx
    have hx2 : "getMockImplementation" = sfn := by simpa [isServerFn] using hx.2
    exact h hx2.symm
  constructor <;>
    simp [rewrittenInit, rwE, rwS, rwSL, rwDL, rwD, rwEL, cntE, cntS, cntSL, cntD, cntDL,
      cntEL, hid]

mutual

theorem rwFixE (fns : List String) (sfn : String) (h : sfn ≠ "getMockImplementation") :
    ∀ e : Expr,
      cntE fns sfn (rwE fns sfn e) = 0 ∧ rwE fns sfn (rwE fns sfn e) = rwE fns sfn e
  | .identifier n => by simp [rwE, cntE]
  | .stringLiteral s => by simp [rwE, cntE]
  | .objectExpression ps => by
    have ih := rwFixEL fns sfn h ps
    simp [rwE, cntE, ih.1, ih.2]
  | .memberExpression o p => by
    have ih := rwFixE fns sfn h o
    simp [rwE, cntE, ih.1, ih.2]
  | .callExpression c a => by
    have ihc := rwFixE fns sfn h c
    have iha := rwFixEL fns sfn h a
    simp [rwE, cntE, ihc.1, ihc.2, iha.1, iha.2]
  | .newExpression c a => by
    have ihc := rwFixE fns sfn h c
    have iha := rwFixEL fns sfn h a
    simp [rwE, cntE, ihc.1, ihc.2, iha.1, iha.2]
  | .arrowFunctionExpression ps b => by
    have ih := rwFixS fns sfn h b
    simp [rwE, cntE, ih.1, ih.2]
  | .logicalExpression op l r => by
    have ihl := rwFixE fns sfn h l
    have ihr := rwFixE fns sfn h r
    simp [rwE, cntE, ihl.1, ihl.2, ihr.1, ihr.2]

theorem rwFixEL (fns : List String) (sfn : String) (h : sfn ≠ "getMockImplementation") :
    ∀ l : ExprList,
      cntEL fns sfn (rwEL fns sfn l) = 0 ∧ rwEL fns sfn (rwEL fns sfn l) = rwEL fns sfn l
  | .nil => by simp [rwEL, cntEL]
  | .cons hd t => by
    have ih := rwFixE fns sfn h hd
    have iht := rwFixEL fns sfn h t
    simp [rwEL, cntEL, ih.1, ih.2, iht.1, iht.2]

theorem rwFixD (fns : List String) (sfn : String) (h : sfn ≠ "getMockImplementation") :
    ∀ d : Declarator,
      cntD fns sfn (rwD fns sfn d) = 0 ∧ rwD fns sfn (rwD fns sfn d) = rwD fns sfn d
  | .mk (.lid n) (.some i) => by
    have ihi := rwFixE fns sfn h i
    by_cases hc : n ∈ fns ∧ isServerFn sfn i = true
    · have hV := rw_rewrittenInit fns sfn n h
      have hfalse : isServerFn sfn (rewrittenInit n) = false := by
        simp [rewrittenInit, isServerFn]
      have hno2 : ¬(n ∈ fns ∧ isServerFn sfn (rewrittenInit n) = true) := by
        simp [hfalse]
      simp [rwD, cntD, hc, hno2, hfalse, hV.1, hV.2]
    · have hW := isServerFn_rwE fns sfn i
      have hc2 : ¬(n ∈ fns ∧ isServerFn sfn (rwE fns sfn i) = true) := by
        rw [hW]; exact hc
      simp [rwD, cntD, hc, hc2, ihi.1, ihi.2]
  | .mk .lother (.some i) => by
    have ihi := rwFixE fns sfn h i
    simp [rwD, cntD, ihi.1, ihi.2]
  | .mk v .none => by cases v <;> simp [rwD, cntD]

theorem rwFixDL (fns : List String) (sfn : String) (h : sfn ≠ "getMockImplementation") :
    ∀ l : DeclList,
      cntDL fns sfn (rwDL fns sfn l) = 0 ∧ rwDL fns sfn (rwDL fns sfn l) = rwDL fns sfn l
  | .nil => by simp [rwDL, cntDL]
  | .cons hd t => by
    have ih := rwFixD fns sfn h hd
    have iht := rwFixDL fns sfn h t
    simp [rwDL, cntDL, ih.1, ih.2, iht.1, iht.2]

theorem rwFixS (fns : List String) (sfn : String) (h : sfn ≠ "getMockImplementation") :
    ∀ s : Stmt,
      cntS fns sfn (rwS fns sfn s) = 0 ∧ rwS fns sfn (rwS fns sfn s) = rwS fns sfn s
  | .blockStatement b => by
    have ih := rwFixSL fns sfn h b
    simp [rwS, cntS, ih.1, ih.2]
  | .variableDeclaration k ds => by
    have ih := rwFixDL fns sfn h ds
    simp [rwS, cntS, ih.1, ih.2]
  | .ifStatement t c a => by
    have iht := rwFixE fns sfn h t
    have ihc := rwFixS fns sfn h c
    have iha := rwFixS fns sfn h a
    simp [rwS, cntS, iht.1, iht.2, ihc.1, ihc.2, iha.1, iha.2]
  | .returnStatement e => by
    have ih := rwFixE fns sfn h e
    simp [rwS, cntS, ih.1, ih.2]
  | .throwStatement e => by
    have ih := rwFixE fns sfn h e
    simp [rwS, cntS, ih.1, ih.2]
  | .expressionStatement e => by
    have ih := rwFixE fns sfn h e
    simp [rwS, cntS, ih.1, ih.2]
  | .importDeclaration sp src => by simp [rwS, cntS]
  | .exportNamedDeclaration d => by
    have ih := rwFixS fns sfn h d
    simp [rwS, cntS, ih.1, ih.2]
  | .emptyStatement => by simp [rwS, cntS]

theorem rwFixSL (fns : List String) (sfn : String) (h : sfn ≠ "getMockImplementation") :
    ∀ l : StmtList,
      cntSL fns sfn (rwSL fns sfn l) = 0 ∧ rwSL fns sfn (rwSL fns sfn l) = rwSL fns sfn l
  | .nil => by simp [rwSL, cntSL]
  | .cons hd t => by
    have ih := rwFixS fns sfn h hd
    have iht := rwFixSL fns sfn h t
    simp [rwSL, cntSL, ih.1, ih.2, iht.1, iht.2]

end

theorem scanNamesSL_prependImports (k : Nat) (p : StmtList) :
    scanNamesSL (prependImports k p) = scanNamesSL p := by
  induction k with
  | zero => rfl
  | succ k ih => simp [prependImports, scanNamesSL, mockImport, scanNamesS, ih]

theorem scanRwSL_prependImports (k : Nat) (p : StmtList) :
    scanRwSL (prependImports k p) = prependImports k (scanRwSL p) := by
  induction k with
  | zero => rfl
  | succ k ih => simp [prependImports, scanRwSL, mockImport, scanRwS, ih]

theorem cntSL_prependImports (fns : List String) (sfn : String) (k : Nat) (p : StmtList) :
    cntSL fns sfn (prependImports k p) = cntSL fns sfn p := by
  induction k with
  | zero => rfl
  | succ k ih => simp [prependImports, cntSL, mockImport, cntS, ih]

theorem rwSL_prependImports (fns : List String) (sfn : String) (k : Nat) (p : StmtList) :
    rwSL fns sfn (prependImports k p) = prependImports k (rwSL fns sfn p) := by
  induction k with
  | zero => rfl
  | succ k ih => simp [prependImports, rwSL, mockImport, rwS, ih]

/-! ## Claim theorems for the registry -/

/-- Claim C5: for every name `n` and implementations `f`, `f1`, `f2`:
immediately after `register(n, f)` (the `Map.set` / property-assignment store
performed by `mockServerFn`), `lookup(n)` returns `f` and `has(n)` is true;
registrations overwrite, so after `register(n, f1); register(n, f2)` the
lookup returns `f2`.  The final conjunct connects the store operation to the
`mockServerFn` wrapper of `src/unnamed/part_000`, which performs exactly this
store for every nonempty name. -/
theorem registry_register_lookup {α : Type} (r : Registry α) (n : String) (f f1 f2 : α) :
    getMockImplementation (Registry.set r n f) n = some f
    ∧ hasMock (Registry.set r n f) n = true
    ∧ getMockImplementation (Registry.set (Registry.set r n f1) n f2) n = some f2
    ∧ (n ≠ "" → MapRegistry.mockServerFn r n f = Except.ok (Registry.set r n f)) := by
  refine ⟨?_, ?_, ?_, ?_⟩
  · simp [getMockImplementation, Registry.set, List.lookup]
  · simp [hasMock, getMockImplementation, Registry.set, List.lookup]
  · simp [getMockImplementation, Registry.set, List.lookup]
  · intro h
    simp [MapRegistry.mockServerFn, h]

/-- Witness for C5 at concrete inputs. -/
theorem registry_register_lookup_witness :
    getMockImplementation (Registry.set ([] : Registry Nat) "getUsers" 1) "getUsers" = some 1
    ∧ hasMock (Registry.set ([] : Registry Nat) "getUsers" 1) "getUsers" = true
    ∧ getMockImplementation
        (Registry.set (Registry.set ([] : Registry Nat) "getUsers" 2) "getUsers" 3) "getUsers"
        = some 3
    ∧ ("getUsers" ≠ "" →
        MapRegistry.mockServerFn ([] : Registry Nat) "getUsers" 1
          = Except.ok (Registry.set ([] : Registry Nat) "getUsers" 1)) := by
  have h := registry_register_lookup ([] : Registry Nat) "getUsers" 1 2 3
  exact ⟨h.1, h.2.1, h.2.2.1, fun _ => h.2.2.2 (by decide)⟩

/-- Counterexample for claim C6: in the plain-object variant of
`src/src/mock.ts`, the never-registered name `toString` is found: the
property read returns the value inherited from `Object.prototype` instead of
the absent marker and the `in` test returns true — also after `clearMocks`
reassigns a fresh object literal, which still inherits the prototype. -/
theorem registry_proto_leak_cex :
    GlobalRegistry.getMockImplementation ([] : Registry Nat) "toString"
        = GlobalRegistry.Slot.inherited
    ∧ GlobalRegistry.hasMock ([] : Registry Nat) "toString" = true
    ∧ GlobalRegistry.getMockImplementation
        (GlobalRegistry.clearMocks ([("toString", 1)] : Registry Nat)) "toString"
        = GlobalRegistry.Slot.inherited
    ∧ GlobalRegistry.hasMock
        (GlobalRegistry.clearMocks ([("toString", 1)] : Registry Nat)) "toString" = true :=
  ⟨rfl, rfl, rfl, rfl⟩

/-- Claim C6, amended: for every name `n` that is not currently registered —
never registered, or after `clear()` — the `Map`-based registry of
`src/unnamed/part_000` returns the absent marker from `lookup` and false
from `has`, and `lookup` is total; the plain-object registry of
`src/src/mock.ts` satisfies this only for names that are not
`Object.prototype` property keys — an unregistered prototype key such as
`toString` is looked up as the inherited built-in and reported present by
`has`, the fresh `{}` left by `clearMocks` included. -/
theorem registry_absent_lookup {α : Type} (r : Registry α) (n : String)
    (habs : ∀ f : α, (n, f) ∉ r) :
    getMockImplementation r n = none
    ∧ hasMock r n = false
    ∧ getMockImplementation (clearMocks r) n = none
    ∧ hasMock (clearMocks r) n = false
    ∧ (∀ (r2 : Registry α) (n2 : String),
        (∃ f, getMockImplementation r2 n2 = some f) ∨ getMockImplementation r2 n2 = none)
    ∧ (n ∉ objectProtoKeys →
        GlobalRegistry.getMockImplementation r n = GlobalRegistry.Slot.absent
        ∧ GlobalRegistry.hasMock r n = false
        ∧ GlobalRegistry.getMockImplementation (GlobalRegistry.clearMocks r) n
            = GlobalRegistry.Slot.absent
        ∧ GlobalRegistry.hasMock (GlobalRegistry.clearMocks r) n = false)
    ∧ (n ∈ objectProtoKeys →
        GlobalRegistry.getMockImplementation r n = GlobalRegistry.Slot.inherited
        ∧ GlobalRegistry.hasMock r n = true) := by
  have hnone : getMockImplementation r n = none := by
    induction r with
    | nil => rfl
    | cons p t ih =>
      obtain ⟨k, v⟩ := p
      have hne : ¬(n = k) := by
        intro he
        exact habs v (by rw [he]; exact List.mem_cons_self _ _)
      have ht : ∀ f : α, (n, f) ∉ t := by
        intro f hf
        exact habs f (List.mem_cons_of_mem _ hf)
      have hbeq : (n == k) = false := beq_eq_false_iff_ne.mpr hne
      have := ih ht
      simpa [getMockImplementation, List.lookup, hbeq] using this
  have hlk : List.lookup n r = none := hnone
  refine ⟨hnone, by simp [hasMock, hnone], rfl, rfl, ?_, ?_, ?_⟩
  · intro r2 n2
    cases h : getMockImplementation r2 n2 with
    | none => exact Or.inr rfl
    | some f => exact Or.inl ⟨f, rfl⟩
  · intro hnp
    refine ⟨?_, ?_, ?_, ?_⟩
    · simp [GlobalRegistry.getMockImplementation, hlk, hnp]
    · simp [GlobalRegistry.hasMock, hlk, hnp]
    · simp [GlobalRegistry.getMockImplementation, GlobalRegistry.clearMocks,
        List.lookup, hnp]
    · simp [GlobalRegistry.hasMock, GlobalRegistry.clearMocks, List.lookup, hnp]
  · intro hp
    constructor
    · simp [GlobalRegistry.getMockImplementation, hlk, hp]
    · simp [GlobalRegistry.hasMock, hp]

/-- Witness for C6 (amended) at concrete inputs: the `Map` variant and the
off-prototype global case at the unregistered name `getPosts`, and the
prototype case at the unregistered name `toString`. -/
theorem registry_absent_lookup_witness :
    getMockImplementation ([("getUsers", 1)] : Registry Nat) "getPosts" = none
    ∧ hasMock ([("getUsers", 1)] : Registry Nat) "getPosts" = false
    ∧ getMockImplementation (clearMocks ([("getUsers", 1)] : Registry Nat)) "getPosts" = none
    ∧ hasMock (clearMocks ([("getUsers", 1)] : Registry Nat)) "getPosts" = false
    ∧ (∀ (r2 : Registry Nat) (n2 : String),
        (∃ f, getMockImplementation r2 n2 = some f) ∨ getMockImplementation r2 n2 = none)
    ∧ (GlobalRegistry.getMockImplementation ([("getUsers", 1)] : Registry Nat) "getPosts"
          = GlobalRegistry.Slot.absent
        ∧ GlobalRegistry.hasMock ([("getUsers", 1)] : Registry Nat) "getPosts" = false
        ∧ GlobalRegistry.getMockImplementation
            (GlobalRegistry.clearMocks ([("getUsers", 1)] : Registry Nat)) "getPosts"
            = GlobalRegistry.Slot.absent
        ∧ GlobalRegistry.hasMock
            (GlobalRegistry.clearMocks ([("getUsers", 1)] : Registry Nat)) "getPosts" = false)
    ∧ (GlobalRegistry.getMockImplementation ([] : Registry Nat) "toString"
          = GlobalRegistry.Slot.inherited
        ∧ GlobalRegistry.hasMock ([] : Registry Nat) "toString" = true) := by
  have h1 := registry_absent_lookup ([("getUsers", 1)] : Registry Nat) "getPosts"
    (by intro f hf; simp at hf)
  have h2 := registry_absent_lookup ([] : Registry Nat) "toString"
    (by intro f hf; simp at hf)
  exact ⟨h1.1, h1.2.1, h1.2.2.1, h1.2.2.2.1, h1.2.2.2.2.1,
    h1.2.2.2.2.2.1 (by decide), h2.2.2.2.2.2.2 (by decide)⟩

/-- Counterexample for claim C3: the `src/src/mock.ts` registration called
with no injected name and a function whose own name is empty does not fail —
it silently stores the implementation under the empty-string key, and a
subsequent lookup of that fallback key finds it. -/
theorem mockServerFn_empty_name_cex :
    GlobalRegistry.mockServerFn ([] : Registry Nat) "" 7 Option.none = [("", 7)]
    ∧ getMockImplementation ([("", 7)] : Registry Nat) "" = some 7 := by
  constructor
  · rfl
  · rfl

/-- Claim C3, amended: the `Map`-based variant (`src/unnamed/part_000`)
rejects an empty name — `mockServerFn` throws its naming error and registers
nothing — while the global-object variant (`src/src/mock.ts`) performs no
validation and stores the implementation under the computed key
`_fnName || serverFn.name`, which is the empty string when both are empty. -/
theorem mockServerFn_empty_name (α : Type) (r : Registry α) (impl : α) (n : String)
    (h : n ≠ "") :
    MapRegistry.mockServerFn r "" impl
        = Except.error "Server function must have a name to be mocked"
    ∧ MapRegistry.mockServerFn r n impl = Except.ok (Registry.set r n impl)
    ∧ (∀ (ownName : String) (fn : Option String),
        GlobalRegistry.mockServerFn r ownName impl fn
          = Registry.set r (jsStringOr fn ownName) impl)
    ∧ GlobalRegistry.mockServerFn r "" impl Option.none = Registry.set r "" impl := by
  refine ⟨rfl, ?_, fun _ _ => rfl, rfl⟩
  simp [MapRegistry.mockServerFn, h]

/-- Witness for C3 (amended) at concrete inputs. -/
theorem mockServerFn_empty_name_witness :
    MapRegistry.mockServerFn ([] : Registry Nat) "" 7
        = Except.error "Server function must have a name to be mocked"
    ∧ MapRegistry.mockServerFn ([] : Registry Nat) "getUsers" 7
        = Except.ok (Registry.set ([] : Registry Nat) "getUsers" 7)
    ∧ (∀ (ownName : String) (fn : Option String),
        GlobalRegistry.mockServerFn ([] : Registry Nat) ownName 7 fn
          = Registry.set ([] : Registry Nat) (jsStringOr fn ownName) 7)
    ∧ GlobalRegistry.mockServerFn ([] : Registry Nat) "" 7 Option.none
        = Registry.set ([] : Registry Nat) "" 7 :=
  mockServerFn_empty_name Nat ([] : Registry Nat) 7 "getUsers" (by decide)

/-- Claim C9: the wrapper produced by `createMockWrapper`, invoked while no
mock is registered under the original function's own name, calls the original
function with the same arguments and returns its result; when a mock is
registered it calls the mock instead. -/
theorem createMockWrapper_fallback {α β : Type} (nm : String) (f : α → β)
    (r : Registry (α → β)) (a : α) :
    (getMockImplementation r nm = none → MapRegistry.createMockWrapper nm f r a = f a)
    ∧ (∀ m, getMockImplementation r nm = some m →
        MapRegistry.createMockWrapper nm f r a = m a) := by
  constructor
  · intro h
    simp [MapRegistry.createMockWrapper, h]
  · intro m h
    simp [MapRegistry.createMockWrapper, h]

/-- Witness for C9 at concrete inputs. -/
theorem createMockWrapper_fallback_witness :
    (getMockImplementation ([] : Registry (Nat → Nat)) "getUsers" = none →
      MapRegistry.createMockWrapper "getUsers" (fun k => k + 1) [] 5 = (fun k => k + 1) 5)
    ∧ (∀ m, getMockImplementation ([("getUsers", fun _ => 0)] : Registry (Nat → Nat))
          "getUsers" = some m →
        MapRegistry.createMockWrapper "getUsers" (fun k => k + 1)
          ([("getUsers", fun _ => 0)] : Registry (Nat → Nat)) 5 = m 5) :=
  ⟨(createMockWrapper_fallback "getUsers" (fun k => k + 1) [] 5).1,
   (createMockWrapper_fallback "getUsers" (fun k => k + 1)
      ([("getUsers", fun _ => 0)] : Registry (Nat → Nat)) 5).2⟩

theorem isServerFn_iff (sfn : String) : ∀ e : Expr, isServerFn sfn e = true ↔ FactoryChain sfn e
  | .identifier n => by
    constructor
    · intro hx; simp [isServerFn] at hx
    · intro hx; cases hx
  | .stringLiteral s => by
    constructor
    · intro hx; simp [isServerFn] at hx
    · intro hx; cases hx
  | .objectExpression ps => by
    constructor
    · intro hx; simp [isServerFn] at hx
    · intro hx; cases hx
  | .memberExpression o p => by
    constructor
    · intro hx; simp [isServerFn] at hx
    · intro hx; cases hx
  | .newExpression c a => by
    constructor
    · intro hx; simp [isServerFn] at hx
    · intro hx; cases hx
  | .arrowFunctionExpression ps b => by
    constructor
    · intro hx; simp [isServerFn] at hx
    · intro hx; cases hx
  | .logicalExpression op l r => by
    constructor
    · intro hx; simp [isServerFn] at hx
    · intro hx; cases hx
  | .callExpression (.identifier nm) a => by
    constructor
    · intro hx
      have hnm : nm = sfn := by simpa [isServerFn] using hx
      subst hnm
      exact FactoryChain.base a
    · intro hx
      cases hx with
      | base _ => simp [isServerFn]
  | .callExpression (.memberExpression o p) a => by
    have ih := isServerFn_iff sfn o
    constructor
    · intro hx
      have ho : isServerFn sfn o = true := by simpa [isServerFn] using hx
      exact FactoryChain.step o p a (ih.mp ho)
    · intro hx
      cases hx with
      | step _ _ _ hobj => simpa [isServerFn] using ih.mpr hobj
  | .callExpression (.stringLiteral s) a => by
    constructor
    · intro hx; simp [isServerFn] at hx
    · intro hx; cases hx
  | .callExpression (.objectExpression ps) a => by
    constructor
    · intro hx; simp [isServerFn] at hx
    · intro hx; cases hx
  | .callExpression (.callExpression c2 a2) a => by
    constructor
    · intro hx; simp [isServerFn] at hx
    · intro hx; cases hx
  | .callExpression (.newExpression c2 a2) a => by
    constructor
    · intro hx; simp [isServerFn] at hx
    · intro hx; cases hx
  | .callExpression (.arrowFunctionExpression ps b) a => by
    constructor
    · intro hx; simp [isServerFn] at hx
    · intro hx; cases hx
  | .callExpression (.logicalExpression op l r) a => by
    constructor
    · intro hx; simp [isServerFn] at hx
    · intro hx; cases hx

/-- Claim C2: for candidates in the known-mocked set, the classifier returns
positive exactly when the initializer is a chain of call expressions whose
innermost callee is the plain identifier equal to the configured factory name,
descending through member-access callees (the `FactoryChain` refinement); in
particular `factory().handler()`, `factory().validator().handler()` and
`factory().handler().extra()` classify positive, while a bare object literal
or a call to an unrelated name classifies negative. -/
theorem classifier_characterization (sfn other : String)
    (fArgs vArgs hArgs eArgs ps : ExprList) (e : Expr) :
    (isServerFn sfn e = true ↔ FactoryChain sfn e)
    ∧ isServerFn sfn (Expr.callExpression (Expr.memberExpression
        (Expr.callExpression (Expr.identifier sfn) fArgs) "handler") hArgs) = true
    ∧ isServerFn sfn (Expr.callExpression (Expr.memberExpression
        (Expr.callExpression (Expr.memberExpression
          (Expr.callExpression (Expr.identifier sfn) fArgs) "validator") vArgs)
        "handler") hArgs) = true
    ∧ isServerFn sfn (Expr.callExpression (Expr.memberExpression
        (Expr.callExpression (Expr.memberExpression
          (Expr.callExpression (Expr.identifier sfn) fArgs) "handler") hArgs)
        "extra") eArgs) = true
    ∧ isServerFn sfn (Expr.objectExpression ps) = false
    ∧ (other ≠ sfn →
        isServerFn sfn (Expr.callExpression (Expr.identifier other) fArgs) = false) := by
  refine ⟨isServerFn_iff sfn e, ?_, ?_, ?_, ?_, ?_⟩
  · simp [isServerFn]
  · simp [isServerFn]
  · simp [isServerFn]
  · simp [isServerFn]
  · intro hne
    simp [isServerFn, hne]

/-- Witness for C2 at concrete inputs. -/
theorem classifier_characterization_witness :
    (isServerFn "createServerFn" (Expr.objectExpression ExprList.nil) = true
      ↔ FactoryChain "createServerFn" (Expr.objectExpression ExprList.nil))
    ∧ isServerFn "createServerFn" (Expr.callExpression (Expr.memberExpression
        (Expr.callExpression (Expr.identifier "createServerFn") ExprList.nil) "handler")
        ExprList.nil) = true
    ∧ isServerFn "createServerFn" (Expr.callExpression (Expr.memberExpression
        (Expr.callExpression (Expr.memberExpression
          (Expr.callExpression (Expr.identifier "createServerFn") ExprList.nil) "validator")
          ExprList.nil) "handler") ExprList.nil) = true
    ∧ isServerFn "createServerFn" (Expr.callExpression (Expr.memberExpression
        (Expr.callExpression (Expr.memberExpression
          (Expr.callExpression (Expr.identifier "createServerFn") ExprList.nil) "handler")
          ExprList.nil) "extra") ExprList.nil) = true
    ∧ isServerFn "createServerFn" (Expr.objectExpression ExprList.nil) = false
    ∧ isServerFn "createServerFn"
        (Expr.callExpression (Expr.identifier "otherFn") ExprList.nil) = false := by
  have hx := classifier_characterization "createServerFn" "otherFn"
    ExprList.nil ExprList.nil ExprList.nil ExprList.nil ExprList.nil
    (Expr.objectExpression ExprList.nil)
  exact ⟨hx.1, hx.2.1, hx.2.2.1, hx.2.2.2.1, hx.2.2.2.2.1, hx.2.2.2.2.2 (by decide)⟩

/-- Claim C1: for every declaration named `n` that the classifier marks
positive (and whose name is in the session set), the rewriter replaces its
initializer with a one-parameter `args` function whose body looks the mock up
under the literal string `n` through the imported registry-lookup binding;
when a mock is present it is invoked with `args` defaulted to the empty
object when `args` is nullish and its result is returned; when no mock is
present an error is thrown whose message contains the literal name `n`. -/
theorem rewriter_semantics (fns : List String) (sfn : String)
    (reg : Registry (Value → Value)) (n : String) (i : Expr) (a : Value) :
    (n ∈ fns → isServerFn sfn i = true →
      rwD fns sfn (Declarator.mk (LVal.lid n) (OptExpr.some i))
        = Declarator.mk (LVal.lid n) (OptExpr.some (rewrittenInit n)))
    ∧ (∀ m, getMockImplementation reg n = some m →
        callRewritten reg n a = Except.ok (RtVal.val (m (jsNullishDefault a))))
    ∧ (getMockImplementation reg n = none →
        ∃ pre post, callRewritten reg n a
          = Except.error (EvalErr.thrown (Value.errObj (pre ++ n ++ post)))) := by
  refine ⟨?_, ?_, ?_⟩
  · intro h1 h2
    simp [rwD, h1, h2]
  · intro m hm
    cases a <;>
      simp [callRewritten, callArrow, rewrittenInit, registryEnv, evalStmt, evalStmts,
        evalDecls, evalExpr, evalArgs, List.lookup, hm, rtTruthy, rtNullish, jsNullishDefault,
        bind, Except.bind, pure, Except.pure]
  · intro hm
    refine ⟨"No mock implementation found for ", "", ?_⟩
    cases a <;>
      simp [callRewritten, callArrow, rewrittenInit, registryEnv, evalStmt, evalStmts,
        evalDecls, evalExpr, evalArgs, List.lookup, hm, rtTruthy, rtNullish, jsNullishDefault,
        bind, Except.bind, pure, Except.pure]

/-- Witness for C1 at concrete inputs: a mocked `getUsers` server-function
declaration is rewritten; calling the rewritten function with a registered
mock returns the mock's result, and with an empty registry it throws the
naming error. -/
theorem rewriter_semantics_witness :
    rwD ["getUsers"] "createServerFn"
      (Declarator.mk (LVal.lid "getUsers")
        (OptExpr.some (Expr.callExpression (Expr.memberExpression
          (Expr.callExpression (Expr.identifier "createServerFn") ExprList.nil) "handler")
          ExprList.nil)))
      = Declarator.mk (LVal.lid "getUsers") (OptExpr.some (rewrittenInit "getUsers"))
    ∧ callRewritten [("getUsers", fun _ => Value.ext 1)] "getUsers" Value.undef
        = Except.ok (RtVal.val (Value.ext 1))
    ∧ (∃ pre post, callRewritten [] "getUsers" Value.undef
        = Except.error (EvalErr.thrown (Value.errObj (pre ++ "getUsers" ++ post)))) := by
  refine ⟨?_, ?_, ?_⟩
  · exact (rewriter_semantics ["getUsers"] "createServerFn" [] "getUsers"
      (Expr.callExpression (Expr.memberExpression
        (Expr.callExpression (Expr.identifier "createServerFn") ExprList.nil) "handler")
        ExprList.nil) Value.undef).1 (by decide) (by decide)
  · exact (rewriter_semantics [] "createServerFn" [("getUsers", fun _ => Value.ext 1)]
      "getUsers" (Expr.identifier "x") Value.undef).2.1 (fun _ => Value.ext 1) rfl
  · exact (rewriter_semantics [] "createServerFn" [] "getUsers"
      (Expr.identifier "x") Value.undef).2.2 rfl

/-- Claim C7: the scanner records exactly the names appearing as a simple
identifier first argument of a two-argument registration call: a call
`mockServerFn(getUsers, impl)` with identifier first argument yields the
singleton name list and has the literal name pushed as third argument, while
`mockServerFn(obj.getUsers, impl)` with a member-expression first argument
yields no name and leaves the call node untouched. -/
theorem scanner_names (x : String) (m2 obj : Expr) (prop : String)
    (hm2n : scanNamesE m2 = []) (hm2r : scanRwE m2 = m2)
    (hobn : scanNamesE obj = []) (hobr : scanRwE obj = obj) :
    scanNamesE (Expr.callExpression (Expr.identifier "mockServerFn")
        (ExprList.cons (Expr.identifier x) (ExprList.cons m2 ExprList.nil))) = [x]
    ∧ scanRwE (Expr.callExpression (Expr.identifier "mockServerFn")
        (ExprList.cons (Expr.identifier x) (ExprList.cons m2 ExprList.nil)))
      = Expr.callExpression (Expr.identifier "mockServerFn")
          (ExprList.cons (Expr.identifier x)
            (ExprList.cons m2 (ExprList.cons (Expr.stringLiteral x) ExprList.nil)))
    ∧ scanNamesE (Expr.callExpression (Expr.identifier "mockServerFn")
        (ExprList.cons (Expr.memberExpression obj prop) (ExprList.cons m2 ExprList.nil)))
        = []
    ∧ scanRwE (Expr.callExpression (Expr.identifier "mockServerFn")
        (ExprList.cons (Expr.memberExpression obj prop) (ExprList.cons m2 ExprList.nil)))
      = Expr.callExpression (Expr.identifier "mockServerFn")
          (ExprList.cons (Expr.memberExpression obj prop) (ExprList.cons m2 ExprList.nil))
    := by
  have hno : NoHit (Expr.identifier "mockServerFn")
      (ExprList.cons (Expr.memberExpression obj prop) (ExprList.cons m2 ExprList.nil)) := by
    intro x' m' _ ha
    simp at ha
  refine ⟨?_, ?_, ?_, ?_⟩
  · simp [scanNamesE, hm2n]
  · simp [scanRwE, hm2r]
  · rw [scanNamesE_call_miss hno]
    simp [scanNamesE, scanNamesEL, hm2n, hobn]
  · rw [scanRwE_call_miss hno]
    simp [scanRwE, scanRwEL, hm2r, hobr]

/-- Witness for C7 at concrete inputs. -/
theorem scanner_names_witness :
    scanNamesE (Expr.callExpression (Expr.identifier "mockServerFn")
        (ExprList.cons (Expr.identifier "getUsers")
          (ExprList.cons (Expr.arrowFunctionExpression [] (Stmt.blockStatement StmtList.nil))
            ExprList.nil))) = ["getUsers"]
    ∧ scanRwE (Expr.callExpression (Expr.identifier "mockServerFn")
        (ExprList.cons (Expr.identifier "getUsers")
          (ExprList.cons (Expr.arrowFunctionExpression [] (Stmt.blockStatement StmtList.nil))
            ExprList.nil)))
      = Expr.callExpression (Expr.identifier "mockServerFn")
          (ExprList.cons (Expr.identifier "getUsers")
            (ExprList.cons (Expr.arrowFunctionExpression [] (Stmt.blockStatement StmtList.nil))
              (ExprList.cons (Expr.stringLiteral "getUsers") ExprList.nil)))
    ∧ scanNamesE (Expr.callExpression (Expr.identifier "mockServerFn")
        (ExprList.cons (Expr.memberExpression (Expr.identifier "obj") "getUsers")
          (ExprList.cons (Expr.arrowFunctionExpression [] (Stmt.blockStatement StmtList.nil))
            ExprList.nil))) = []
    ∧ scanRwE (Expr.callExpression (Expr.identifier "mockServerFn")
        (ExprList.cons (Expr.memberExpression (Expr.identifier "obj") "getUsers")
          (ExprList.cons (Expr.arrowFunctionExpression [] (Stmt.blockStatement StmtList.nil))
            ExprList.nil)))
      = Expr.callExpression (Expr.identifier "mockServerFn")
          (ExprList.cons (Expr.memberExpression (Expr.identifier "obj") "getUsers")
            (ExprList.cons (Expr.arrowFunctionExpression [] (Stmt.blockStatement StmtList.nil))
              ExprList.nil)) :=
  scanner_names "getUsers"
    (Expr.arrowFunctionExpression [] (Stmt.blockStatement StmtList.nil))
    (Expr.identifier "obj") "getUsers" rfl rfl rfl rfl

/-- Claim C10: the scan pass matches only registration calls with exactly two
arguments; a `mockServerFn` call whose argument count differs from two — in
particular one already carrying the injected literal third argument — is left
unchanged and contributes no name to the session set. -/
theorem scanner_arity (args : ExprList) (hn : scanNamesEL args = [])
    (hr : scanRwEL args = args) (hlen : ExprList.length args ≠ 2) :
    scanNamesE (Expr.callExpression (Expr.identifier "mockServerFn") args) = []
    ∧ scanRwE (Expr.callExpression (Expr.identifier "mockServerFn") args)
        = Expr.callExpression (Expr.identifier "mockServerFn") args := by
  have hno : NoHit (Expr.identifier "mockServerFn") args := by
    intro x m _ ha
    exact hlen (by rw [ha]; rfl)
  constructor
  · rw [scanNamesE_call_miss hno]
    simp [scanNamesE, hn]
  · rw [scanRwE_call_miss hno]
    simp [scanRwE, hr]

/-- Witness for C10: a three-argument registration call (the output of an
earlier transform run) is untouched and contributes no name. -/
theorem scanner_arity_witness :
    scanNamesE (Expr.callExpression (Expr.identifier "mockServerFn")
        (ExprList.cons (Expr.identifier "getUsers")
          (ExprList.cons (Expr.arrowFunctionExpression [] (Stmt.blockStatement StmtList.nil))
            (ExprList.cons (Expr.stringLiteral "getUsers") ExprList.nil)))) = []
    ∧ scanRwE (Expr.callExpression (Expr.identifier "mockServerFn")
        (ExprList.cons (Expr.identifier "getUsers")
          (ExprList.cons (Expr.arrowFunctionExpression [] (Stmt.blockStatement StmtList.nil))
            (ExprList.cons (Expr.stringLiteral "getUsers") ExprList.nil))))
      = Expr.callExpression (Expr.identifier "mockServerFn")
          (ExprList.cons (Expr.identifier "getUsers")
            (ExprList.cons (Expr.arrowFunctionExpression [] (Stmt.blockStatement StmtList.nil))
              (ExprList.cons (Expr.stringLiteral "getUsers") ExprList.nil))) :=
  scanner_arity
    (ExprList.cons (Expr.identifier "getUsers")
      (ExprList.cons (Expr.arrowFunctionExpression [] (Stmt.blockStatement StmtList.nil))
        (ExprList.cons (Expr.stringLiteral "getUsers") ExprList.nil)))
    rfl rfl (by decide)

/-- Claim C8: the per-unit transform returns the no-change signal whenever
the plugin is disabled, the unit id lies inside `node_modules`, the id does
not end in a recognized source extension, or parsing fails — in every case
the original source passes through and the session set is untouched; the
failure never escapes the hook. -/
theorem transform_guard (enabled : Bool) (sfn : String) (fns : List String) (id : String)
    (parsed : Except String StmtList)
    (h : enabled = false ∨ jsIncludes id "node_modules" = true
      ∨ matchesSourceExt id = false ∨ ∃ e, parsed = Except.error e) :
    pluginTransform enabled sfn fns id parsed = (Option.none, fns) := by
  rcases h with h | h | h | ⟨e, he⟩
  · simp [pluginTransform, h]
  · simp [pluginTransform, h]
  · simp [pluginTransform, h]
  · subst he
    unfold pluginTransform
    split
    · rfl
    · rfl

/-- Witness for C8 at concrete inputs (disabled plugin, vendor id, wrong
extension, parse failure). -/
theorem transform_guard_witness :
    pluginTransform false "createServerFn" [] "src/a.ts" (Except.ok StmtList.nil)
        = (Option.none, [])
    ∧ pluginTransform true "createServerFn" [] "x/node_modules/a.ts"
        (Except.ok StmtList.nil) = (Option.none, [])
    ∧ pluginTransform true "createServerFn" [] "src/a.css" (Except.ok StmtList.nil)
        = (Option.none, [])
    ∧ pluginTransform true "createServerFn" [] "src/a.ts"
        (Except.error "parse failure") = (Option.none, []) :=
  ⟨transform_guard false "createServerFn" [] "src/a.ts" (Except.ok StmtList.nil)
      (Or.inl rfl),
   transform_guard true "createServerFn" [] "x/node_modules/a.ts" (Except.ok StmtList.nil)
      (Or.inr (Or.inl (by decide))),
   transform_guard true "createServerFn" [] "src/a.css" (Except.ok StmtList.nil)
      (Or.inr (Or.inr (Or.inl (by decide)))),
   transform_guard true "createServerFn" [] "src/a.ts" (Except.error "parse failure")
      (Or.inr (Or.inr (Or.inr ⟨"parse failure", rfl⟩)))⟩

/-- Counterexample for claim C4: the rewriter performs no check for an
existing matching import — transforming a unit that already contains the
registry-lookup import and one fresh mocked server-function declaration
yields a unit with two copies of that import. -/
theorem rewriter_duplicate_import_cex :
    countMockImports (transformUnit ["getUsers"] "createServerFn"
      (StmtList.cons mockImport
        (StmtList.cons (Stmt.variableDeclaration "const"
          (DeclList.cons (Declarator.mk (LVal.lid "getUsers")
            (OptExpr.some (Expr.callExpression (Expr.memberExpression
              (Expr.callExpression (Expr.identifier "createServerFn") ExprList.nil)
              "handler") ExprList.nil)))
            DeclList.nil))
          StmtList.nil))).1 = 2
    ∧ countMockImports (StmtList.cons mockImport
        (StmtList.cons (Stmt.variableDeclaration "const"
          (DeclList.cons (Declarator.mk (LVal.lid "getUsers")
            (OptExpr.some (Expr.callExpression (Expr.memberExpression
              (Expr.callExpression (Expr.identifier "createServerFn") ExprList.nil)
              "handler") ExprList.nil)))
            DeclList.nil))
          StmtList.nil)) = 1 := by
  constructor
  · rfl
  · rfl

/-- Claim C4, amended: the transform is idempotent on its own output —
a second run reports no change and returns the first run's tree — but not
for the reason the claim states: the second run's scan matches no
three-argument registration call and the classifier rejects the generated
arrow-function initializer, so the rewriter and its import insertion never
run again.  The rewriter itself performs no existing-import check: it
unconditionally unshifts one import per rewritten declaration (see the
counterexample).  The hypothesis excludes the degenerate configuration in
which the factory name equals the injected lookup binding, where Babel's
requeue on the replacement would not terminate. -/
theorem transform_idempotent (fns : List String) (sfn : String) (p : StmtList)
    (h : sfn ≠ "getMockImplementation") :
    (transformUnit (transformUnit fns sfn p).2.1 sfn (transformUnit fns sfn p).1).2.2 = false
    ∧ (transformUnit (transformUnit fns sfn p).2.1 sfn (transformUnit fns sfn p).1).1
        = (transformUnit fns sfn p).1 := by
  have hS := scanFixSL p
  have hT := scanCleanRwSL (insertAll fns (scanNamesSL p)) sfn (scanRwSL p) hS.1
  have hU := rwFixSL (insertAll fns (scanNamesSL p)) sfn h (scanRwSL p)
  have hA : scanNamesSL (prependImports
      (cntSL (insertAll fns (scanNamesSL p)) sfn (scanRwSL p))
      (rwSL (insertAll fns (scanNamesSL p)) sfn (scanRwSL p))) = [] := by
    rw [scanNamesSL_prependImports]
    exact hT.1
  have hB : scanRwSL (prependImports
      (cntSL (insertAll fns (scanNamesSL p)) sfn (scanRwSL p))
      (rwSL (insertAll fns (scanNamesSL p)) sfn (scanRwSL p)))
      = prependImports
          (cntSL (insertAll fns (scanNamesSL p)) sfn (scanRwSL p))
          (rwSL (insertAll fns (scanNamesSL p)) sfn (scanRwSL p)) := by
    rw [scanRwSL_prependImports, hT.2.1]
  have hC : cntSL (insertAll fns (scanNamesSL p)) sfn (prependImports
      (cntSL (insertAll fns (scanNamesSL p)) sfn (scanRwSL p))
      (rwSL (insertAll fns (scanNamesSL p)) sfn (scanRwSL p))) = 0 := by
    rw [cntSL_prependImports]
    exact hU.1
  have hD : rwSL (insertAll fns (scanNamesSL p)) sfn (prependImports
      (cntSL (insertAll fns (scanNamesSL p)) sfn (scanRwSL p))
      (rwSL (insertAll fns (scanNamesSL p)) sfn (scanRwSL p)))
      = prependImports
          (cntSL (insertAll fns (scanNamesSL p)) sfn (scanRwSL p))
          (rwSL (insertAll fns (scanNamesSL p)) sfn (scanRwSL p)) := by
    rw [rwSL_prependImports, hU.2]
  have hnil : ∀ g : List String, insertAll g [] = g := fun _ => rfl
  constructor
  · simp only [transformUnit, hA, hnil, hB, hC]
    simp
  · simp only [transformUnit, hA, hnil, hB, hC, hD]
    simp [prependImports]

/-- Witness for C4 (amended) at concrete inputs. -/
theorem transform_idempotent_witness :
    (transformUnit
      (transformUnit ["getUsers"] "createServerFn"
        (StmtList.cons (Stmt.variableDeclaration "const"
          (DeclList.cons (Declarator.mk (LVal.lid "getUsers")
            (OptExpr.some (Expr.callExpression (Expr.memberExpression
              (Expr.callExpression (Expr.identifier "createServerFn") ExprList.nil)
              "handler") ExprList.nil)))
            DeclList.nil))
          StmtList.nil)).2.1
      "createServerFn"
      (transformUnit ["getUsers"] "createServerFn"
        (StmtList.cons (Stmt.variableDeclaration "const"
          (DeclList.cons (Declarator.mk (LVal.lid "getUsers")
            (OptExpr.some (Expr.callExpression (Expr.memberExpression
              (Expr.callExpression (Expr.identifier "createServerFn") ExprList.nil)
              "handler") ExprList.nil)))
            DeclList.nil))
          StmtList.nil)).1).2.2 = false
    ∧ (transformUnit
      (transformUnit ["getUsers"] "createServerFn"
        (StmtList.cons (Stmt.variableDeclaration "const"
          (DeclList.cons (Declarator.mk (LVal.lid "getUsers")
            (OptExpr.some (Expr.callExpression (Expr.memberExpression
              (Expr.callExpression (Expr.identifier "createServerFn") ExprList.nil)
              "handler") ExprList.nil)))
            DeclList.nil))
          StmtList.nil)).2.1
      "createServerFn"
      (transformUnit ["getUsers"] "createServerFn"
        (StmtList.cons (Stmt.variableDeclaration "const"
          (DeclList.cons (Declarator.mk (LVal.lid "getUsers")
            (OptExpr.some (Expr.callExpression (Expr.memberExpression
              (Expr.callExpression (Expr.identifier "createServerFn") ExprList.nil)
              "handler") ExprList.nil)))
            DeclList.nil))
          StmtList.nil)).1).1
      = (transformUnit ["getUsers"] "createServerFn"
        (StmtList.cons (Stmt.variableDeclaration "const"
          (DeclList.cons (Declarator.mk (LVal.lid "getUsers")
            (OptExpr.some (Expr.callExpression (Expr.memberExpression
              (Expr.callExpression (Expr.identifier "createServerFn") ExprList.nil)
              "handler") ExprList.nil)))
            DeclList.nil))
          StmtList.nil)).1 :=
  transform_idempotent ["getUsers"] "createServerFn"
    (StmtList.cons (Stmt.variableDeclaration "const"
      (DeclList.cons (Declarator.mk (LVal.lid "getUsers")
        (OptExpr.some (Expr.callExpression (Expr.memberExpression
          (Expr.callExpression (Expr.identifier "createServerFn") ExprList.nil)
          "handler") ExprList.nil)))
        DeclList.nil))
      StmtList.nil)
    (by decide)
